import Mathlib

/-!
Shallow embedding of the CBC RAG engine (`src/rag_engine.py`, with the lab-value
helper `nz` from `src/app.py`) and proofs about its retrieval pipeline.

Modelling conventions:
* Python floats are modelled as real numbers (exact arithmetic); `math.sqrt` is
  `Real.sqrt` and Python's `round(x, 4)` is `round4` below.
* A knowledge-base chunk dict is the structure `Chunk`; the optional dict keys
  `"section"`, `"_score"` and `"_method"` are `Option` fields (`none` = key
  absent, matching `dict.get`).
* The Gemini embedding/generation clients and Python's decimal rendering of
  floats are external effects; they are passed in as the oracle record
  `Providers`, and every provider interaction an engine method performs is
  returned explicitly as a `ProviderCall` list.
* `list.sort(key=..., reverse=True)` (Python's stable sort) is modelled by the
  stable descending insertion sort `sortDescBy`.
* A `raise RuntimeError` is modelled as `Except.error`.
-/

/-- Knowledge-base chunk: a Python dict with keys `section` (optional), `title`,
`keywords`, `text`, and the optional result-annotation keys `_score` and
`_method` (absent on stored chunks, set on copies returned by `search`). -/
structure Chunk where
  sectionName : Option String
  title : String
  keywords : List String
  text : String
  _score : Option ℝ
  _method : Option String

/-- Python `chunk.copy()` followed by `chunk["_score"] = s`. -/
def Chunk.withScore (c : Chunk) (s : ℝ) : Chunk :=
  ⟨c.sectionName, c.title, c.keywords, c.text, some s, c._method⟩

/-- Python `chunk.copy()` followed by `chunk["_score"] = s; chunk["_method"] = m`. -/
def Chunk.withScoreMethod (c : Chunk) (s : ℝ) (m : String) : Chunk :=
  ⟨c.sectionName, c.title, c.keywords, c.text, some s, some m⟩

/-- Chunk as loaded from the knowledge base: no `_score`/`_method` keys. -/
def baseChunk (sec : Option String) (title : String) (kws : List String) (txt : String) : Chunk :=
  ⟨sec, title, kws, txt, none, none⟩

/-- Python `round(x, 4)` in exact arithmetic: round `x * 10^4` to the nearest
integer and divide back.  (Python rounds half-ties to even, `round` in Mathlib
rounds half-ties up; no statement below evaluates `round4` at a half-tie.) -/
noncomputable def round4 (x : ℝ) : ℝ := (round (x * 10000) : ℤ) / 10000

/-- Source `cosine_similarity(a, b)` (`rag_engine.py` lines 19-25): dot product
over `zip a b`, magnitudes via `math.sqrt`, and `0.0` when either magnitude is
zero. -/
noncomputable def cosine_similarity (a b : List ℝ) : ℝ :=
  let dot := ((a.zip b).map (fun p => p.1 * p.2)).sum
  let mag_a := Real.sqrt ((a.map (fun x => x * x)).sum)
  let mag_b := Real.sqrt ((b.map (fun x => x * x)).sum)
  if mag_a = 0 ∨ mag_b = 0 then 0 else dot / (mag_a * mag_b)

/-! Stable descending sort, modelling Python's `list.sort(key=f, reverse=True)`:
descending in `f`, elements with equal keys keep their original relative order.
Insertion sort formulation: each element is inserted into the sorted rest just
before the first element whose key is `≤` its own. -/

/-- Insert `x` (which preceded every element of `l` in the input) into the
sorted list `l`: `x` goes before the first element with key `≤ f x`. -/
noncomputable def insertDescBy {α : Type} (f : α → ℝ) (x : α) : List α → List α
  | [] => [x]
  | y :: ys => if f y ≤ f x then x :: y :: ys else y :: insertDescBy f x ys

/-- Stable descending sort by key `f` (model of Python's stable
`sort(key=f, reverse=True)`). -/
noncomputable def sortDescBy {α : Type} (f : α → ℝ) : List α → List α
  | [] => []
  | x :: xs => insertDescBy f x (sortDescBy f xs)

/-- Specification-side insertion: order strictly by (key descending, index
ascending) — the spec's "sort descending by score, ties broken by original
insertion order". -/
noncomputable def insertLexBy {α : Type} (f : α → ℝ) (g : α → ℕ) (x : α) : List α → List α
  | [] => [x]
  | y :: ys =>
    if f y < f x ∨ (f x = f y ∧ g x < g y) then x :: y :: ys else y :: insertLexBy f g x ys

/-- Specification-side sort: strictly by (key descending, index ascending). -/
noncomputable def sortLexBy {α : Type} (f : α → ℝ) (g : α → ℕ) : List α → List α
  | [] => []
  | x :: xs => insertLexBy f g x (sortLexBy f g xs)

/-- Source `InMemoryVectorStore`: parallel lists of chunk dicts and embedding
vectors. -/
structure InMemoryVectorStore where
  documents : List Chunk
  embeddings : List (List ℝ)

/-- Source `InMemoryVectorStore.add` (lines 90-92): append to both parallel
lists. -/
def InMemoryVectorStore.add (store : InMemoryVectorStore) (chunk : Chunk)
    (embedding : List ℝ) : InMemoryVectorStore :=
  ⟨store.documents ++ [chunk], store.embeddings ++ [embedding]⟩

/-- Python condition `section_filter and doc.get("section") != section_filter`
(line 103): an entry is skipped iff the filter is truthy (not `None` and not the
empty string) and the document's section differs from it. -/
def sectionSkip (section_filter : Option String) (doc : Chunk) : Bool :=
  match section_filter with
  | none => false
  | some s => if s = "" then false else decide (doc.sectionName ≠ some s)

/-- Source `InMemoryVectorStore.search` (lines 94-114): score every stored
vector against the query with `cosine_similarity` (skipping filtered-out
entries), stable-sort the `(score, idx)` pairs descending by score, take the
first `top_k`, and return a copy of each corresponding document annotated with
the rounded score.  The `enumerate`/`self.documents[idx]` pairing of the source
is rendered by zipping the two parallel lists with their index. -/
noncomputable def InMemoryVectorStore.search (store : InMemoryVectorStore)
    (query_embedding : List ℝ) (top_k : ℕ) (section_filter : Option String) : List Chunk :=
  let scored := (store.documents.zip store.embeddings).enum.filterMap
    (fun p => if sectionSkip section_filter p.2.1 then none
              else some (cosine_similarity query_embedding p.2.2, p.1, p.2.1))
  ((sortDescBy (fun t => t.1) scored).take top_k).map
    (fun t => Chunk.withScore t.2.2 (round4 t.1))

/-- Specification-side eligibility: with no filter every entry is eligible; with
a filter, exactly the entries whose section equals the filter value. -/
def specEligible (section_filter : Option String) (doc : Chunk) : Bool :=
  match section_filter with
  | none => true
  | some s => decide (doc.sectionName = some s)

/-- Specification-side description of `search`, written from the spec's words:
compute the cosine score of every eligible entry, order the eligible entries
strictly by (score descending, insertion index ascending), truncate to `top_k`,
and return score-annotated copies. -/
noncomputable def searchSpec (store : InMemoryVectorStore) (query_embedding : List ℝ)
    (top_k : ℕ) (section_filter : Option String) : List Chunk :=
  let eligible := (store.documents.zip store.embeddings).enum.filterMap
    (fun p => if specEligible section_filter p.2.1
              then some (cosine_similarity query_embedding p.2.2, p.1, p.2.1)
              else none)
  ((sortLexBy (fun t => t.1) (fun t => t.2.1) eligible).take top_k).map
    (fun t => Chunk.withScore t.2.2 (round4 t.1))

/-! Keyword fallback retriever (`rag_engine.py` lines 470-501). -/

/-- ASCII model of the regex word character class used in
`re.findall(r"\b\w+\b", s)`. -/
def isWordChar (c : Char) : Bool := c.isAlphanum || c = '_'

/-- Accumulator pass splitting a character list into maximal word-character
runs; `cur` holds the current run reversed. -/
def tokensAux : List Char → List Char → List String
  | [], cur => if cur.isEmpty then [] else [String.mk cur.reverse]
  | c :: cs, cur =>
    if isWordChar c then tokensAux cs (c :: cur)
    else if cur.isEmpty then tokensAux cs []
    else String.mk cur.reverse :: tokensAux cs []

/-- Model of `re.findall(r"\b\w+\b", s)`: the maximal runs of word characters
of `s`, in order. -/
def tokenize (s : String) : List String := tokensAux s.toList []

/-- Source `KeywordRetriever`: holds the static chunk list. -/
structure KeywordRetriever where
  chunks : List Chunk

/-- Source `KeywordRetriever._score` (lines 479-489): token set of the
lowercased `text + " " + title + " " + " ".join(keywords)`, then
`|overlap| / sqrt(|chunk_tokens|)`, with `0.0` for an empty token set. -/
noncomputable def KeywordRetriever._score (chunk : Chunk) (query_tokens : Finset String) : ℝ :=
  let chunk_text := chunk.text.toLower ++ " " ++ chunk.title.toLower ++ " " ++
    (String.intercalate " " chunk.keywords).toLower
  let chunk_tokens := (tokenize chunk_text).toFinset
  let overlap := query_tokens ∩ chunk_tokens
  if chunk_tokens = ∅ then 0
  else (overlap.card : ℝ) / Real.sqrt (chunk_tokens.card : ℝ)

/-- Source `KeywordRetriever.search` (lines 491-501): score every chunk against
the lowercased query's token set, stable-sort descending, truncate to `top_k`,
and return copies annotated with the rounded score and `_method = "keyword"`. -/
noncomputable def KeywordRetriever.search (kr : KeywordRetriever) (query : String)
    (top_k : ℕ) : List Chunk :=
  let query_tokens := (tokenize query.toLower).toFinset
  let scored := kr.chunks.map (fun c => (KeywordRetriever._score c query_tokens, c))
  ((sortDescBy (fun p => p.1) scored).take top_k).map
    (fun p => Chunk.withScoreMethod p.2 (round4 p.1) "keyword")

/-- Specification-side keyword score, from the spec's words: the number of
distinct lowercase word tokens shared between the query and the chunk's
combined text+title+keywords, divided by the square root of the number of
distinct tokens of that combined text; `0.0` when the combined text yields no
tokens. -/
noncomputable def keywordScoreSpec (query : String) (chunk : Chunk) : ℝ :=
  let qTokens := (tokenize query.toLower).toFinset
  let cTokens := (tokenize (chunk.text.toLower ++ " " ++ chunk.title.toLower ++ " " ++
    (String.intercalate " " chunk.keywords).toLower)).toFinset
  if cTokens.card = 0 then 0
  else ((qTokens ∩ cTokens).card : ℝ) / Real.sqrt (cTokens.card : ℝ)

/-- Specification-side description of the keyword search: chunks ordered
strictly by (spec score descending, original chunk position ascending),
truncated to `top_k`, annotated copies returned. -/
noncomputable def keywordSearchSpec (kr : KeywordRetriever) (query : String)
    (top_k : ℕ) : List Chunk :=
  let scored := kr.chunks.enum.map (fun p => (keywordScoreSpec query p.2, p.1, p.2))
  ((sortLexBy (fun t => t.1) (fun t => t.2.1) scored).take top_k).map
    (fun t => Chunk.withScoreMethod t.2.2 (round4 t.1) "keyword")

/-! RAG orchestrator (`CBCRagEngine`, lines 124-463).  The Gemini clients and
Python's float rendering are oracles (`Providers`); each method returns the
provider interactions it performed as an explicit `ProviderCall` list. -/

/-- Oracle record for the external collaborators: `embed text task_type`
models `GeminiEmbeddingClient.embed`, `generate prompt temperature` models the
Gemini generation call, and `fmt`/`fmt3` model Python's `str(x)` and `f"{x:.3f}"`
renderings of a float. -/
structure Providers where
  embed : String → String → List ℝ
  generate : String → ℝ → String
  fmt : ℝ → String
  fmt3 : ℝ → String

/-- One call to an external provider. -/
inductive ProviderCall where
  | embed (text task_type : String)
  | generate (prompt : String) (temperature : ℝ)

/-- Errors surfaced by the engine; `indexNotReady` models the
`RuntimeError("Index not built. Call build_index() first.")` of `retrieve`. -/
inductive RagError where
  | indexNotReady
deriving DecidableEq

/-- One entry of the `sources` attribution list built by `generate_with_rag`
(lines 236-245). -/
structure SourceAttribution where
  index : ℕ
  title : String
  sectionName : String
  score : ℝ
  preview : String

/-- Return value of `generate_with_rag` (lines 247-252). -/
structure RagAnswer where
  answer : String
  sources : List SourceAttribution
  retrieved_chunks : List Chunk
  query : String

/-- Source `CBCRagEngine` state: the loaded chunks, the vector store, and the
`_ready` flag.  The provider clients live in `Providers`. -/
structure CBCRagEngine where
  chunks : List Chunk
  store : InMemoryVectorStore
  _ready : Bool

/-- Engine as constructed by `__init__` (lines 134-144) with the knowledge base
already parsed: empty store, `_ready = False`. -/
def mkEngine (chunks : List Chunk) : CBCRagEngine := ⟨chunks, ⟨[], []⟩, false⟩

/-- Text embedded for a chunk during index build (lines 154-160). -/
def chunkEmbedText (c : Chunk) : String :=
  "Section: " ++ c.sectionName.getD "" ++ "\nTitle: " ++ c.title ++
  "\nKeywords: " ++ String.intercalate ", " c.keywords ++ "\n" ++ c.text

/-- Source `CBCRagEngine.build_index` (lines 146-168): embed every chunk,
`add` each (chunk, embedding) pair to the existing store (the store is not
cleared first), set `_ready = True`, return the chunk count.  Also returns the
embedding calls performed. -/
def build_index (P : Providers) (e : CBCRagEngine) :
    CBCRagEngine × ℕ × List ProviderCall :=
  (⟨e.chunks,
    e.chunks.foldl
      (fun st c => st.add c (P.embed (chunkEmbedText c) "RETRIEVAL_DOCUMENT")) e.store,
    true⟩,
   e.chunks.length,
   e.chunks.map (fun c => ProviderCall.embed (chunkEmbedText c) "RETRIEVAL_DOCUMENT"))

/-- Source `CBCRagEngine.is_ready` (lines 170-171). -/
def is_ready (e : CBCRagEngine) : Bool := e._ready

/-- Source `CBCRagEngine.retrieve` (lines 173-179): raise if the index is not
ready (before any provider call), otherwise embed the query in
`RETRIEVAL_QUERY` mode and delegate to the store's search. -/
noncomputable def retrieve (P : Providers) (e : CBCRagEngine) (query : String) (top_k : ℕ)
    (section_filter : Option String) : Except RagError (List Chunk) × List ProviderCall :=
  if e._ready then
    let q_emb := P.embed query "RETRIEVAL_QUERY"
    (Except.ok (e.store.search q_emb top_k section_filter),
     [ProviderCall.embed query "RETRIEVAL_QUERY"])
  else
    (Except.error RagError.indexNotReady, [])

/-- Source `CBCRagEngine.format_context` (lines 181-189). -/
def format_context (fmt3 : ℝ → String) (chunks : List Chunk) : String :=
  String.intercalate "\n\n" (chunks.enum.map (fun p =>
    "[Source " ++ toString (p.1 + 1) ++ ": " ++ p.2.sectionName.getD "" ++ " — " ++
    p.2.title ++ " (relevance: " ++ fmt3 (p.2._score.getD 0) ++ ")]\n" ++ p.2.text))

/-- The grounding prompt assembled by `generate_with_rag` (lines 203-225). -/
def ragPrompt (context_str additional_context query : String) : String :=
  "You are an expert clinical hematologist with deep knowledge of CBC interpretation per UpToDate guidelines.\n\n" ++
  "Use ONLY the following retrieved knowledge passages to answer the clinical question. Cite each source as [Source N] inline.\n" ++
  "If the passages do not contain enough information, clearly state this.\n\n" ++
  "────────────────────────────────────────\n" ++
  "RETRIEVED KNOWLEDGE PASSAGES:\n" ++ context_str ++ "\n" ++
  "────────────────────────────────────────\n\n" ++
  (if additional_context = "" then ""
   else "ADDITIONAL PATIENT CONTEXT:\n" ++ additional_context ++ "\n") ++
  "\n\nCLINICAL QUESTION:\n" ++ query ++ "\n\n" ++
  "────────────────────────────────────────\n" ++
  "INSTRUCTIONS:\n" ++
  "- Answer with clinical precision grounded only in the provided passages\n" ++
  "- Use [Source N] citations inline for every clinical claim\n" ++
  "- Structure your answer with these sections: Clinical Finding | Interpretation | Differential Diagnosis | Recommended Next Steps\n" ++
  "- Be specific about cutoff values, mechanisms, and test recommendations\n" ++
  "- End with a \"Key References Used\" list\n"

/-- Source `CBCRagEngine.generate_with_rag` (lines 191-252): retrieve (which
raises when the index is unbuilt), format the retrieved context, assemble the
grounding prompt, call the generation provider, and build the `RagAnswer` with
its 1-indexed source attributions. -/
noncomputable def generate_with_rag (P : Providers) (e : CBCRagEngine) (query : String)
    (top_k : ℕ) (additional_context : String) (temperature : ℝ) :
    Except RagError RagAnswer × List ProviderCall :=
  match retrieve P e query top_k none with
  | (Except.error err, calls) => (Except.error err, calls)
  | (Except.ok retrieved, calls) =>
    let context_str := format_context P.fmt3 retrieved
    let prompt := ragPrompt context_str additional_context query
    let answer := P.generate prompt temperature
    let sources := retrieved.enum.map (fun p =>
      SourceAttribution.mk (p.1 + 1) p.2.title (p.2.sectionName.getD "")
        (p.2._score.getD 0) (p.2.text.take 120 ++ "..."))
    (Except.ok ⟨answer, sources, retrieved, query⟩,
     calls ++ [ProviderCall.generate prompt temperature])

/-! Domain query synthesizers.  Lab values arrive as a Python dict mapping
field name to float-or-None (the UI stores `nz(...)` results, see `app.py`
lines 520-549), modelled as an association list of `Option ℝ` values. -/

/-- Python `cbc_values.get(k)`: `None` both when the key is absent and when the
stored value is `None`. -/
def getV (m : List (String × Option ℝ)) (k : String) : Option ℝ :=
  match m.lookup k with
  | some v => v
  | none => none

/-- Python dict comprehension `{k: v for k, v in m.items() if v}`: drop entries
whose value is falsy (`None` or `0.0`). -/
noncomputable def truthyEntries (m : List (String × Option ℝ)) : List (String × ℝ) :=
  m.filterMap (fun kv => match kv.2 with
    | some v => if v = 0 then none else some (kv.1, v)
    | none => none)

/-- Python `json.dumps` of a string-to-float dict (no indent). -/
def jsonDumps (fmt : ℝ → String) (m : List (String × ℝ)) : String :=
  "\x7b" ++ String.intercalate ", "
    (m.map (fun kv => "\x22" ++ kv.1 ++ "\x22: " ++ fmt kv.2)) ++ "\x7d"

/-- Python `json.dumps(m, indent=2)` of a string-to-float dict. -/
def jsonDumpsIndent (fmt : ℝ → String) (m : List (String × ℝ)) : String :=
  if m.isEmpty then "\x7b\x7d"
  else "\x7b\n" ++ String.intercalate ",\n"
    (m.map (fun kv => "  \x22" ++ kv.1 ++ "\x22: " ++ fmt kv.2)) ++ "\n\x7d"

/-- Python `repr` of a list of strings, as interpolated by an f-string. -/
def pyListRepr (l : List String) : String :=
  "[" ++ String.intercalate ", " (l.map (fun s => "\x27" ++ s ++ "\x27")) ++ "]"

/-- Rendering of an optional float inside an f-string: `None` or the float. -/
def showOpt (fmt : ℝ → String) : Option ℝ → String
  | none => "None"
  | some v => fmt v

/-- Source `CBCRagEngine.analyze_anemia` (lines 258-278): read `hgb`, `mcv`,
`rdw`, `retic`; return the `None` sentinel (no provider call) when `hgb` is
absent or at/above the sex-specific lower bound (13.5 for "M", else 12.0);
otherwise synthesize the anemia query and run `generate_with_rag` with
`top_k = 5` and the truthy-filtered CBC values as additional context. -/
noncomputable def analyze_anemia (P : Providers) (e : CBCRagEngine)
    (cbc_values : List (String × Option ℝ)) (sex : String) :
    Except RagError (Option RagAnswer) × List ProviderCall :=
  let hgb := getV cbc_values "hgb"
  let mcv := getV cbc_values "mcv"
  let rdw := getV cbc_values "rdw"
  let retic := getV cbc_values "retic"
  let hgb_lo : ℝ := if sex = "M" then 13.5 else 12.0
  match hgb with
  | none => (Except.ok none, [])
  | some h =>
    if h ≥ hgb_lo then (Except.ok none, [])
    else
      let query :=
        "\nPatient: " ++ sex ++ ", Hgb=" ++ showOpt P.fmt hgb ++ " g/dL, MCV=" ++
        showOpt P.fmt mcv ++ " fL, RDW=" ++ showOpt P.fmt rdw ++
        "%, Reticulocytes=" ++ showOpt P.fmt retic ++
        "%\nClassify the type of anemia (microcytic/normocytic/macrocytic), identify the most likely causes,\n" ++
        "explain the pathophysiology, and recommend specific next investigations.\n" ++
        "What does the RDW tell us? What is the reticulocyte production index indicating?\n"
      match generate_with_rag P e query 5
        ("CBC values: " ++ jsonDumps P.fmt (truthyEntries cbc_values)) 0.2 with
      | (Except.error err, calls) => (Except.error err, calls)
      | (Except.ok ans, calls) => (Except.ok (some ans), calls)

/-- Python `if x and x < bound: abnormals.append(pre + str(x) + post)` for an
optional lab value `x` (truthiness: `None` and `0.0` are falsy). -/
noncomputable def flagLt (fmt : ℝ → String) (x : Option ℝ) (bound : ℝ)
    (pre post : String) : List String :=
  match x with
  | some v => if v ≠ 0 ∧ v < bound then [pre ++ fmt v ++ post] else []
  | none => []

/-- Python `if x and x > bound: abnormals.append(pre + str(x) + post)`. -/
noncomputable def flagGt (fmt : ℝ → String) (x : Option ℝ) (bound : ℝ)
    (pre post : String) : List String :=
  match x with
  | some v => if v ≠ 0 ∧ v > bound then [pre ++ fmt v ++ post] else []
  | none => []

/-- Body of `full_rag_analysis` (lines 399-463) after the dict reads: the
source reads `cbc_values` only through `entered` and the locals
`hgb`/`wbc`/`neut`/`plt`/`lymph`/`mcv`, which arrive here as arguments. -/
noncomputable def full_rag_core (P : Providers) (e : CBCRagEngine)
    (entered : List (String × ℝ)) (hgb wbc neut plt lymph mcv : Option ℝ)
    (sex : String) (age : ℕ) : Except RagError RagAnswer × List ProviderCall :=
  let hgb_lo : ℝ := if sex = "M" then 13.5 else 12.0
  let hgb_hi : ℝ := if sex = "M" then 17.5 else 15.5
  let abnormals : List String :=
    flagLt P.fmt hgb hgb_lo "Anemia (Hgb " " g/dL)" ++
    flagGt P.fmt hgb hgb_hi "Erythrocytosis (Hgb " " g/dL)" ++
    flagGt P.fmt wbc 11.0 "Leukocytosis (WBC " " ×10⁹/L)" ++
    flagLt P.fmt wbc 4.5 "Leukopenia (WBC " " ×10⁹/L)" ++
    flagGt P.fmt neut 7.7 "Neutrophilia (ANC " ")" ++
    flagLt P.fmt neut 1.8 "Neutropenia (ANC " ")" ++
    flagLt P.fmt plt 150 "Thrombocytopenia (PLT " ")" ++
    flagGt P.fmt plt 400 "Thrombocytosis (PLT " ")" ++
    flagLt P.fmt lymph 1.0 "Lymphopenia (ALC " ")" ++
    flagGt P.fmt lymph 4.8 "Lymphocytosis (ALC " ")" ++
    flagLt P.fmt mcv 80 "Microcytosis (MCV " " fL)" ++
    flagGt P.fmt mcv 100 "Macrocytosis (MCV " " fL)"
  let query :=
    "\nComplete CBC analysis for a " ++ toString age ++ "-year-old " ++
    (if sex = "M" then "male" else "female") ++ " patient.\n" ++
    "Identified abnormalities: " ++
    (if abnormals.isEmpty then "None identified" else String.intercalate "; " abnormals) ++
    ".\nCBC values: " ++ jsonDumpsIndent P.fmt entered ++ ".\n\n" ++
    "Provide a comprehensive clinical analysis:\n" ++
    "1. PRIORITIZED FINDINGS: Rank abnormalities by clinical urgency\n" ++
    "2. UNIFIED DIFFERENTIAL: What single diagnosis or combination best explains all findings?\n" ++
    "3. PATHOPHYSIOLOGY: Link the CBC pattern to underlying mechanisms\n" ++
    "4. CRITICAL ALERTS: Any values requiring immediate action?\n" ++
    "5. SEQUENTIAL INVESTIGATION PLAN: Step-by-step with rationale\n" ++
    "6. COLLECTION QUALITY: Any CBC internal inconsistencies suggesting pre-analytical error?\n"
  generate_with_rag P e query 6
    ("Patient: " ++ sex ++ ", age " ++ toString age ++ ". Abnormalities: " ++
     pyListRepr abnormals) 0.2

/-- Source `CBCRagEngine.full_rag_analysis` (lines 399-463): serialize the
entered values (`v is not None and v > 0`), collect the abnormality flags with
Python truthiness checks, and always issue one composite RAG query. -/
noncomputable def full_rag_analysis (P : Providers) (e : CBCRagEngine)
    (cbc_values : List (String × Option ℝ)) (sex : String) (age : ℕ) :
    Except RagError RagAnswer × List ProviderCall :=
  let entered := cbc_values.filterMap (fun kv => match kv.2 with
    | some v => if v > 0 then some (kv.1, v) else none
    | none => none)
  full_rag_core P e entered (getV cbc_values "hgb") (getV cbc_values "wbc")
    (getV cbc_values "neut_abs") (getV cbc_values "plt")
    (getV cbc_values "lymph_abs") (getV cbc_values "mcv") sex age

/-- Source `nz` (`app.py` lines 942-944): `v if v and v != 0.0 else None` — the
input-collection layer stores `None` for a `0.0` reading. -/
noncomputable def nz (v : ℝ) : Option ℝ := if v ≠ 0 then some v else none

/-! State-threading renderings of the two search methods, for the frame claim:
the translation of each method body makes its effect on `self` explicit.
Neither body assigns to any attribute of `self`; the result list is accumulated
from `copy()`-ed chunks. -/

/-- Method-level translation of `InMemoryVectorStore.search` threading the
receiver: the result loop builds annotated copies and never writes to
`self.documents`/`self.embeddings`. -/
noncomputable def InMemoryVectorStore.searchSt (store : InMemoryVectorStore)
    (query_embedding : List ℝ) (top_k : ℕ) (section_filter : Option String) :
    InMemoryVectorStore × List Chunk :=
  let scored := (store.documents.zip store.embeddings).enum.filterMap
    (fun p => if sectionSkip section_filter p.2.1 then none
              else some (cosine_similarity query_embedding p.2.2, p.1, p.2.1))
  ((sortDescBy (fun t => t.1) scored).take top_k).foldl
    (fun acc t => (acc.1, acc.2 ++ [Chunk.withScore t.2.2 (round4 t.1)]))
    (store, [])

/-- Method-level translation of `KeywordRetriever.search` threading the
receiver. -/
noncomputable def KeywordRetriever.searchSt (kr : KeywordRetriever) (query : String)
    (top_k : ℕ) : KeywordRetriever × List Chunk :=
  let query_tokens := (tokenize query.toLower).toFinset
  let scored := kr.chunks.map (fun c => (KeywordRetriever._score c query_tokens, c))
  ((sortDescBy (fun p => p.1) scored).take top_k).foldl
    (fun acc p => (acc.1, acc.2 ++ [Chunk.withScoreMethod p.2 (round4 p.1) "keyword"]))
    (kr, [])

/-! Helper lemmas about the stable-sort model. -/

theorem mem_insertDescBy {α : Type} (f : α → ℝ) (x a : α) (l : List α) :
    a ∈ insertDescBy f x l ↔ a = x ∨ a ∈ l := by
  induction l with
  | nil => simp [insertDescBy]
  | cons y ys ih =>
    by_cases h : f y ≤ f x
    · simp [insertDescBy, h]
    · simp [insertDescBy, h, ih]
      tauto

theorem mem_sortDescBy {α : Type} (f : α → ℝ) (a : α) (l : List α) :
    a ∈ sortDescBy f l ↔ a ∈ l := by
  induction l with
  | nil => simp [sortDescBy]
  | cons x xs ih => simp [sortDescBy, mem_insertDescBy, ih]

theorem length_insertDescBy {α : Type} (f : α → ℝ) (x : α) (l : List α) :
    (insertDescBy f x l).length = l.length + 1 := by
  induction l with
  | nil => simp [insertDescBy]
  | cons y ys ih =>
    by_cases h : f y ≤ f x
    · simp [insertDescBy, h]
    · simp [insertDescBy, h, ih]

theorem length_sortDescBy {α : Type} (f : α → ℝ) (l : List α) :
    (sortDescBy f l).length = l.length := by
  induction l with
  | nil => rfl
  | cons x xs ih => simp [sortDescBy, length_insertDescBy, ih]

theorem length_insertLexBy {α : Type} (f : α → ℝ) (g : α → ℕ) (x : α) (l : List α) :
    (insertLexBy f g x l).length = l.length + 1 := by
  induction l with
  | nil => simp [insertLexBy]
  | cons y ys ih =>
    by_cases h : f y < f x ∨ (f x = f y ∧ g x < g y)
    · simp [insertLexBy, h]
    · simp [insertLexBy, h, ih]

theorem length_sortLexBy {α : Type} (f : α → ℝ) (g : α → ℕ) (l : List α) :
    (sortLexBy f g l).length = l.length := by
  induction l with
  | nil => rfl
  | cons x xs ih => simp [sortLexBy, length_insertLexBy, ih]

theorem insertDescBy_eq_insertLexBy {α : Type} (f : α → ℝ) (g : α → ℕ) (x : α)
    (l : List α) (h : ∀ b ∈ l, g x < g b) :
    insertDescBy f x l = insertLexBy f g x l := by
  induction l with
  | nil => rfl
  | cons y ys ih =>
    have hxy : g x < g y := h y (by simp)
    have hcond : (f y < f x ∨ (f x = f y ∧ g x < g y)) ↔ f y ≤ f x := by
      constructor
      · rintro (h1 | ⟨h1, _⟩)
        · exact le_of_lt h1
        · exact le_of_eq h1.symm
      · intro h1
        rcases lt_or_eq_of_le h1 with h2 | h2
        · exact Or.inl h2
        · exact Or.inr ⟨h2.symm, hxy⟩
    simp only [insertDescBy, insertLexBy]
    by_cases hc : f y ≤ f x
    · rw [if_pos hc, if_pos (hcond.mpr hc)]
    · rw [if_neg hc, if_neg (fun hh => hc (hcond.mp hh)),
        ih (fun b hb => h b (List.mem_cons_of_mem _ hb))]

theorem sortDescBy_eq_sortLexBy {α : Type} (f : α → ℝ) (g : α → ℕ) (l : List α)
    (h : List.Pairwise (fun a b => g a < g b) l) :
    sortDescBy f l = sortLexBy f g l := by
  induction l with
  | nil => rfl
  | cons x xs ih =>
    rcases List.pairwise_cons.mp h with ⟨hx, hxs⟩
    have h1 : sortDescBy f (x :: xs) = insertDescBy f x (sortDescBy f xs) := rfl
    have h2 : sortLexBy f g (x :: xs) = insertLexBy f g x (sortLexBy f g xs) := rfl
    rw [h1, h2, ← ih hxs]
    exact insertDescBy_eq_insertLexBy f g x _
      (fun b hb => hx b ((mem_sortDescBy f b xs).mp hb))

theorem map_insertDescBy {α β : Type} (hm : α → β) (f : β → ℝ) (x : α) (l : List α) :
    (insertDescBy (fun a => f (hm a)) x l).map hm = insertDescBy f (hm x) (l.map hm) := by
  induction l with
  | nil => simp [insertDescBy]
  | cons y ys ih =>
    by_cases hc : f (hm y) ≤ f (hm x)
    · simp [insertDescBy, hc]
    · simp [insertDescBy, hc, ih]

theorem map_sortDescBy {α β : Type} (hm : α → β) (f : β → ℝ) (l : List α) :
    (sortDescBy (fun a => f (hm a)) l).map hm = sortDescBy f (l.map hm) := by
  induction l with
  | nil => rfl
  | cons x xs ih =>
    have h1 : sortDescBy (fun a => f (hm a)) (x :: xs) =
        insertDescBy (fun a => f (hm a)) x (sortDescBy (fun a => f (hm a)) xs) := rfl
    rw [h1, map_insertDescBy, ih]
    rfl

theorem pairwise_fst_lt_enumFrom {α : Type} :
    ∀ (n : ℕ) (l : List α), List.Pairwise (fun p q : ℕ × α => p.1 < q.1) (List.enumFrom n l)
  | _, [] => List.Pairwise.nil
  | n, x :: xs => by
    refine List.Pairwise.cons (fun q hq => ?_) (pairwise_fst_lt_enumFrom (n + 1) xs)
    have hmem : (q.1, q.2) ∈ xs.enumFrom (n + 1) := by simpa using hq
    have := (List.mk_mem_enumFrom_iff_le_and_getElem?_sub.mp hmem).1
    omega

theorem pairwise_fst_lt_enum {α : Type} (l : List α) :
    List.Pairwise (fun p q : ℕ × α => p.1 < q.1) l.enum :=
  pairwise_fst_lt_enumFrom 0 l

theorem pairwise_filterMap_of {α β : Type} (fm : α → Option β)
    {R : α → α → Prop} {S : β → β → Prop}
    (hf : ∀ a b x y, R a b → fm a = some x → fm b = some y → S x y) :
    ∀ l : List α, List.Pairwise R l → List.Pairwise S (l.filterMap fm) := by
  intro l
  induction l with
  | nil => intro _; simp
  | cons a l ih =>
    intro h
    rcases List.pairwise_cons.mp h with ⟨ha, hl⟩
    cases hfa : fm a with
    | none => simpa [List.filterMap_cons, hfa] using ih hl
    | some x =>
      simp only [List.filterMap_cons, hfa]
      refine List.Pairwise.cons (fun y hy => ?_) (ih hl)
      rcases List.mem_filterMap.mp hy with ⟨b, hb, hfb⟩
      exact hf a b x y (ha b hb) hfa hfb

theorem length_filterMap_eq_countP {α β : Type} (fm : α → Option β) (p : α → Bool)
    (hp : ∀ a, (fm a).isSome = p a) :
    ∀ l : List α, (l.filterMap fm).length = l.countP p := by
  intro l
  induction l with
  | nil => rfl
  | cons a l ih =>
    cases hfa : fm a with
    | none =>
      have hpa : p a = false := by rw [← hp a, hfa]; rfl
      simp [List.filterMap_cons, hfa, List.countP_cons, hpa, ih]
    | some x =>
      have hpa : p a = true := by rw [← hp a, hfa]; rfl
      simp [List.filterMap_cons, hfa, List.countP_cons, hpa, ih]

theorem countP_enumFrom {α : Type} (p : α → Bool) :
    ∀ (n : ℕ) (l : List α), (List.enumFrom n l).countP (fun q => p q.2) = l.countP p
  | _, [] => rfl
  | n, x :: xs => by
    simp [List.countP_cons, countP_enumFrom p (n + 1) xs]

theorem round4_zero : round4 0 = 0 := by simp [round4]

theorem round4_one : round4 1 = 1 := by
  have h : ((1 : ℝ) * 10000) = ((10000 : ℤ) : ℝ) := by norm_num
  rw [round4, h, round_intCast]
  norm_num

theorem snd_mem_of_mem_enumFrom {α : Type} :
    ∀ (n : ℕ) (l : List α) (x : ℕ × α), x ∈ List.enumFrom n l → x.2 ∈ l
  | _, [], _, h => by simp at h
  | n, a :: as, x, h => by
    have h' : x ∈ (n, a) :: List.enumFrom (n + 1) as := h
    rcases List.mem_cons.mp h' with h1 | h1
    · rw [h1]
      simp
    · exact List.mem_cons_of_mem _ (snd_mem_of_mem_enumFrom (n + 1) as x h1)

theorem foldl_append_state {σ β γ : Type} (st : σ) (h : β → γ) :
    ∀ (l : List β) (acc : List γ),
      l.foldl (fun a t => (a.1, a.2 ++ [h t])) (st, acc) = (st, acc ++ l.map h)
  | [], acc => by simp
  | b :: l, acc => by
    simp only [List.foldl_cons, List.map_cons]
    rw [foldl_append_state st h l (acc ++ [h b])]
    simp

/-- Membership in the scored list built by `InMemoryVectorStore.search`: the
carried chunk is one of the stored documents and the carried score is the
cosine similarity of the query with one of the stored embeddings. -/
theorem scored_entry_provenance (store : InMemoryVectorStore) (q : List ℝ)
    (sf : Option String) (t : ℝ × ℕ × Chunk)
    (ht : t ∈ (store.documents.zip store.embeddings).enum.filterMap
      (fun p => if sectionSkip sf p.2.1 then none
                else some (cosine_similarity q p.2.2, p.1, p.2.1))) :
    t.2.2 ∈ store.documents ∧ sectionSkip sf t.2.2 = false ∧
      ∃ emb ∈ store.embeddings, t.1 = cosine_similarity q emb := by
  rcases List.mem_filterMap.mp ht with ⟨p, hp, hsome⟩
  by_cases hc : sectionSkip sf p.2.1
  · simp [hc] at hsome
  · simp only [hc, if_neg, Bool.false_eq_true, if_false] at hsome
    have hzip : p.2 ∈ store.documents.zip store.embeddings :=
      snd_mem_of_mem_enumFrom 0 _ p hp
    have hcomp := List.of_mem_zip hzip
    obtain rfl : t = (cosine_similarity q p.2.2, p.1, p.2.1) := (Option.some.inj hsome).symm
    exact ⟨hcomp.1, by simpa using hc, p.2.2, hcomp.2, rfl⟩

/-! Concrete fixtures used by closed counterexample and witness statements. -/

/-- Sample knowledge-base chunk (section "Anemia"). -/
def chunkA : Chunk :=
  baseChunk (some "Anemia") "Iron deficiency" ["iron", "ferritin"] "Iron deficiency anemia."

/-- Sample knowledge-base chunk (section "WBC"). -/
def chunkB : Chunk :=
  baseChunk (some "WBC") "Neutropenia" ["neutropenia"] "Neutropenia evaluation."

/-- Concrete provider oracle used in closed statements. -/
def oracleP : Providers :=
  ⟨fun _ _ => [1], fun _ _ => "generated answer", fun _ => "1.0", fun _ => "1.000"⟩

/-- Engine whose index build has completed over an empty knowledge base:
`_ready` is true and the store is empty. -/
def readyEngine : CBCRagEngine := (build_index oracleP (mkEngine [])).1

/-- C1: the claim that a second `build_index` call leaves exactly one
(chunk, vector) entry per chunk fails on the code: `build_index` never clears
the store, so on an orchestrator with one loaded chunk whose first build has
completed (1 entry, ready), the second call appends a duplicate and leaves 2
documents and 2 embeddings, with `is_ready()` true after both calls. -/
theorem C1_build_index_rebuild_duplicates :
    (build_index oracleP (mkEngine [chunkA])).1.store.documents.length = 1 ∧
    is_ready (build_index oracleP (mkEngine [chunkA])).1 = true ∧
    (build_index oracleP (build_index oracleP (mkEngine [chunkA])).1).1.store.documents.length = 2 ∧
    (build_index oracleP (build_index oracleP (mkEngine [chunkA])).1).1.store.embeddings.length = 2 ∧
    is_ready (build_index oracleP (build_index oracleP (mkEngine [chunkA])).1).1 = true :=
  ⟨rfl, rfl, rfl, rfl, rfl⟩

/-- C2: on an orchestrator whose index is not ready, `retrieve` and
`generate_with_rag` fail with the index-not-ready error, performing no provider
call and returning no (partial) results; after `build_index` completes the
ready flag is set and `retrieve` returns an `ok` result instead of the error. -/
theorem C2_not_ready_fails_explicitly (P : Providers) (e : CBCRagEngine)
    (query : String) (top_k : ℕ) (sf : Option String) (ac : String) (temp : ℝ)
    (h : e._ready = false) :
    retrieve P e query top_k sf = (Except.error RagError.indexNotReady, []) ∧
    generate_with_rag P e query top_k ac temp = (Except.error RagError.indexNotReady, []) ∧
    is_ready (build_index P e).1 = true ∧
    (retrieve P (build_index P e).1 query top_k sf).1 =
      Except.ok ((build_index P e).1.store.search (P.embed query "RETRIEVAL_QUERY") top_k sf) := by
  refine ⟨by simp [retrieve, h], ?_, rfl, ?_⟩
  · simp [generate_with_rag, retrieve, h]
  · simp [retrieve, build_index]

/-- Witness for C2 at a concrete unready orchestrator. -/
theorem C2_not_ready_fails_explicitly_witness :
    (mkEngine [chunkA])._ready = false ∧
    retrieve oracleP (mkEngine [chunkA]) "query" 4 none =
      (Except.error RagError.indexNotReady, []) :=
  ⟨rfl, (C2_not_ready_fails_explicitly oracleP (mkEngine [chunkA]) "query" 4 none "" 0.2 rfl).1⟩

/-- C6: `search` with `top_k = k` is exactly the length-`k` prefix of `search`
with `top_k = k + 1`: identical ranking, with at most one additional entry
appended. -/
theorem C6_search_topk_prefix (store : InMemoryVectorStore) (q : List ℝ) (k : ℕ)
    (sf : Option String) :
    store.search q k sf = (store.search q (k + 1) sf).take k := by
  simp only [InMemoryVectorStore.search]
  rw [← List.map_take, List.take_take, min_eq_left (Nat.le_succ k)]

/-- C10: both search methods are pure reads: the state-threading translation
returns the receiver unchanged with the same results as the functional
rendering, and every returned chunk is a score-annotated copy of a stored
chunk — annotations are made only on the returned copies, so no stored chunk
acquires a `_score`/`_method` key. -/
theorem C10_search_frame (store : InMemoryVectorStore) (q : List ℝ) (top_k : ℕ)
    (sf : Option String) (kr : KeywordRetriever) (query : String) :
    (store.searchSt q top_k sf).1 = store ∧
    (store.searchSt q top_k sf).2 = store.search q top_k sf ∧
    (∀ c ∈ store.search q top_k sf, ∃ d ∈ store.documents, ∃ s, c = d.withScore s) ∧
    (kr.searchSt query top_k).1 = kr ∧
    (kr.searchSt query top_k).2 = kr.search query top_k ∧
    (∀ c ∈ kr.search query top_k, ∃ d ∈ kr.chunks, ∃ s, c = d.withScoreMethod s "keyword") := by
  have hst : store.searchSt q top_k sf = (store, store.search q top_k sf) := by
    simp only [InMemoryVectorStore.searchSt, InMemoryVectorStore.search]
    rw [foldl_append_state]
    simp
  have hkw : kr.searchSt query top_k = (kr, kr.search query top_k) := by
    simp only [KeywordRetriever.searchSt, KeywordRetriever.search]
    rw [foldl_append_state]
    simp
  refine ⟨by rw [hst], by rw [hst], ?_, by rw [hkw], by rw [hkw], ?_⟩
  · intro c hc
    simp only [InMemoryVectorStore.search] at hc
    rcases List.mem_map.mp hc with ⟨t, ht, rfl⟩
    have ht2 : t ∈ sortDescBy (fun t => t.1)
        ((store.documents.zip store.embeddings).enum.filterMap
          (fun p => if sectionSkip sf p.2.1 then none
                    else some (cosine_similarity q p.2.2, p.1, p.2.1))) :=
      List.take_subset _ _ ht
    have ht3 := (mem_sortDescBy _ t _).mp ht2
    exact ⟨t.2.2, (scored_entry_provenance store q sf t ht3).1, round4 t.1, rfl⟩
  · intro c hc
    simp only [KeywordRetriever.search] at hc
    rcases List.mem_map.mp hc with ⟨t, ht, rfl⟩
    have ht2 : t ∈ sortDescBy (fun p => p.1)
        (kr.chunks.map (fun c => (KeywordRetriever._score c
          ((tokenize query.toLower).toFinset), c))) :=
      List.take_subset _ _ ht
    have ht3 := (mem_sortDescBy _ t _).mp ht2
    rcases List.mem_map.mp ht3 with ⟨d, hd, rfl⟩
    exact ⟨d, hd, round4 (KeywordRetriever._score d ((tokenize query.toLower).toFinset)), rfl⟩

/-- C4: a zero-magnitude vector on either side (e.g. an all-zero or empty
vector) makes `cosine_similarity` return exactly 0 through the zero-magnitude
guard (no division is performed), and searching any store with an all-zero
query vector annotates every returned chunk with a score of exactly 0. -/
theorem C4_zero_magnitude_safety (a b : List ℝ) (store : InMemoryVectorStore)
    (top_k : ℕ) (sf : Option String) (c : Chunk) :
    ((∀ x ∈ a, x = 0) ∨ (∀ x ∈ b, x = 0) → cosine_similarity a b = 0) ∧
    ((∀ x ∈ a, x = 0) → c ∈ store.search a top_k sf → c._score = some 0) := by
  have hzero : ∀ v : List ℝ, (∀ x ∈ v, x = 0) →
      Real.sqrt ((v.map (fun x => x * x)).sum) = 0 := by
    intro v hv
    have hsum : (v.map (fun x => x * x)).sum = 0 := by
      apply List.sum_eq_zero
      intro y hy
      rcases List.mem_map.mp hy with ⟨x, hx, rfl⟩
      rw [hv x hx]
      ring
    rw [hsum, Real.sqrt_zero]
  constructor
  · rintro (ha | hb)
    · simp [cosine_similarity, hzero a ha]
    · simp [cosine_similarity, hzero b hb]
  · intro ha hc
    simp only [InMemoryVectorStore.search] at hc
    rcases List.mem_map.mp hc with ⟨t, ht, rfl⟩
    have ht3 := (mem_sortDescBy _ t _).mp (List.take_subset _ _ ht)
    rcases (scored_entry_provenance store a sf t ht3).2.2 with ⟨emb, _, hteq⟩
    have htz : t.1 = 0 := by rw [hteq]; simp [cosine_similarity, hzero a ha]
    simp [Chunk.withScore, htz, round4_zero]

/-- Witness for C4: the zero query vector `[0]` against the stored vector `[5]`
scores exactly 0, and the chunk returned from a one-entry store carries
`_score = 0`. -/
theorem C4_zero_magnitude_safety_witness :
    cosine_similarity [0] [5] = 0 ∧ (chunkA.withScore 0)._score = some 0 := by
  have hs : InMemoryVectorStore.search ⟨[chunkA], [[5]]⟩ [0] 2 none =
      [chunkA.withScore 0] := by
    simp [InMemoryVectorStore.search, sortDescBy, insertDescBy, sectionSkip,
      cosine_similarity, round4_zero, List.enum, List.enumFrom]
  constructor
  · exact (C4_zero_magnitude_safety [0] [5] ⟨[chunkA], [[5]]⟩ 2 none chunkA).1
      (Or.inl (by simp))
  · refine (C4_zero_magnitude_safety [0] [5] ⟨[chunkA], [[5]]⟩ 2 none
      (chunkA.withScore 0)).2 (by simp) ?_
    rw [hs]
    simp

/-- With a filter that is not the empty string, the code's skip condition is
exactly the negation of the spec's eligibility. -/
theorem sectionSkip_eq_not_specEligible (sf : Option String) (hsf : sf ≠ some "")
    (c : Chunk) : sectionSkip sf c = !(specEligible sf c) := by
  cases sf with
  | none => rfl
  | some s =>
    have hs : s ≠ "" := fun h => hsf (by rw [h])
    simp [sectionSkip, specEligible, hs, decide_not]

/-- C3 (amended: for a section filter that is either absent or a non-empty
string — the code treats the falsy empty-string filter as no filter): `search`
computes the cosine score of every eligible stored entry, returns the eligible
chunks ordered strictly by (score descending, insertion order ascending) —
i.e. sorted descending with ties broken by insertion order — truncated to the
first `top_k`, each being a copy annotated with its (rounded) score; and the
result length is `min top_k (number of eligible entries)`, so a `top_k`
exceeding the eligible count returns all eligible entries. -/
theorem C3_search_matches_spec (store : InMemoryVectorStore) (q : List ℝ)
    (top_k : ℕ) (sf : Option String) (hsf : sf ≠ some "") :
    store.search q top_k sf = searchSpec store q top_k sf ∧
    (store.search q top_k sf).length =
      min top_k ((store.documents.zip store.embeddings).countP
        (fun p => specEligible sf p.1)) := by
  have hfun : (fun p : ℕ × Chunk × List ℝ =>
      if sectionSkip sf p.2.1 then none
      else some (cosine_similarity q p.2.2, p.1, p.2.1)) =
      (fun p : ℕ × Chunk × List ℝ =>
      if specEligible sf p.2.1 then some (cosine_similarity q p.2.2, p.1, p.2.1)
      else none) := by
    funext p
    rw [sectionSkip_eq_not_specEligible sf hsf]
    cases specEligible sf p.2.1 <;> simp
  have hpair : List.Pairwise (fun s t : ℝ × ℕ × Chunk => s.2.1 < t.2.1)
      ((store.documents.zip store.embeddings).enum.filterMap
        (fun p => if specEligible sf p.2.1
                  then some (cosine_similarity q p.2.2, p.1, p.2.1) else none)) := by
    have hidx : ∀ (p : ℕ × Chunk × List ℝ) (x : ℝ × ℕ × Chunk),
        (if specEligible sf p.2.1
         then some (cosine_similarity q p.2.2, p.1, p.2.1) else none) = some x →
        x.2.1 = p.1 := by
      intro p x hpx
      by_cases hc : specEligible sf p.2.1
      · simp only [hc, if_true] at hpx
        obtain rfl : x = (cosine_similarity q p.2.2, p.1, p.2.1) :=
          (Option.some.inj hpx).symm
        rfl
      · simp [hc] at hpx
    refine pairwise_filterMap_of _ ?_ _ (pairwise_fst_lt_enum _)
    intro a b x y hab hax hby
    rw [hidx a x hax, hidx b y hby]
    exact hab
  constructor
  · simp only [InMemoryVectorStore.search, searchSpec]
    rw [hfun, sortDescBy_eq_sortLexBy (fun t : ℝ × ℕ × Chunk => t.1)
      (fun t : ℝ × ℕ × Chunk => t.2.1) _ hpair]
  · simp only [InMemoryVectorStore.search]
    rw [List.length_map, List.length_take, length_sortDescBy, hfun]
    congr 1
    rw [length_filterMap_eq_countP _ (fun p : ℕ × Chunk × List ℝ => specEligible sf p.2.1)
      (by intro p; by_cases hc : specEligible sf p.2.1 <;> simp [hc])]
    exact countP_enumFrom (fun pr : Chunk × List ℝ => specEligible sf pr.1) 0 _

/-- Witness for C3 at a concrete store with no filter. -/
theorem C3_search_matches_spec_witness :
    ((none : Option String) ≠ some "") ∧
    InMemoryVectorStore.search ⟨[chunkA], [[1]]⟩ [1] 2 none =
      searchSpec ⟨[chunkA], [[1]]⟩ [1] 2 none :=
  ⟨by simp, (C3_search_matches_spec ⟨[chunkA], [[1]]⟩ [1] 2 none (by simp)).1⟩

/-- Counterexample to C3 as stated: `some ""` is a given filter value that no
stored section matches, so the claim requires every entry to be skipped and the
result to be empty; the code treats the empty-string filter as falsy (no
filtering) and returns the section-"Anemia" chunk, unlike the spec-side
pipeline. -/
theorem C3_empty_filter_counterexample :
    InMemoryVectorStore.search ⟨[chunkA], [[1]]⟩ [1] 3 (some "") =
      [chunkA.withScore 1] ∧
    searchSpec ⟨[chunkA], [[1]]⟩ [1] 3 (some "") = [] := by
  constructor
  · simp [InMemoryVectorStore.search, sortDescBy, insertDescBy, sectionSkip,
      cosine_similarity, round4_one, List.enum, List.enumFrom]
  · simp [searchSpec, specEligible, sortLexBy, chunkA, baseChunk,
      List.enum, List.enumFrom]

/-- A chunk that survives the skip check against a non-empty filter has exactly
the filter's section. -/
theorem sectionName_of_not_skip (s : String) (hs : s ≠ "") (c : Chunk)
    (h : sectionSkip (some s) c = false) : c.sectionName = some s := by
  simp only [sectionSkip, if_neg hs] at h
  simpa using h

/-- C5 (amended: for a section filter that is a non-empty string — the code
treats the falsy empty-string filter as no filter): every chunk returned by
`search` has its section equal to the filter value, and the number of returned
chunks is at most the number of stored documents with that section. -/
theorem C5_filter_soundness (store : InMemoryVectorStore) (q : List ℝ)
    (top_k : ℕ) (s : String) (hs : s ≠ "")
    (hwf : store.documents.length = store.embeddings.length) :
    (store.search q top_k (some s)).all
      (fun c => decide (c.sectionName = some s)) = true ∧
    (store.search q top_k (some s)).length ≤
      store.documents.countP (fun d => decide (d.sectionName = some s)) := by
  constructor
  · rw [List.all_eq_true]
    intro c hc
    simp only [InMemoryVectorStore.search] at hc
    rcases List.mem_map.mp hc with ⟨t, ht, rfl⟩
    have ht3 := (mem_sortDescBy _ t _).mp (List.take_subset _ _ ht)
    have hskip := (scored_entry_provenance store q (some s) t ht3).2.1
    simpa [Chunk.withScore] using sectionName_of_not_skip s hs t.2.2 hskip
  · simp only [InMemoryVectorStore.search]
    rw [List.length_map, List.length_take, length_sortDescBy,
      length_filterMap_eq_countP _
        (fun p : ℕ × Chunk × List ℝ => !(sectionSkip (some s) p.2.1))
        (by intro p; by_cases hc : sectionSkip (some s) p.2.1 <;> simp [hc])]
    refine le_trans (min_le_right _ _) ?_
    have h1 : (store.documents.zip store.embeddings).enum.countP
        (fun p => !(sectionSkip (some s) p.2.1)) =
        (store.documents.zip store.embeddings).countP
        (fun pr => !(sectionSkip (some s) pr.1)) :=
      countP_enumFrom (fun pr : Chunk × List ℝ => !(sectionSkip (some s) pr.1)) 0 _
    have hcnt : (store.documents.zip store.embeddings).countP
        (fun pr => !(sectionSkip (some s) pr.1)) =
        (store.documents.zip store.embeddings).countP
        (fun pr => decide (pr.1.sectionName = some s)) := by
      apply List.countP_congr
      intro pr _
      simp [sectionSkip, if_neg hs, decide_not]
    have hfst : (store.documents.zip store.embeddings).countP
        (fun pr => decide (pr.1.sectionName = some s)) =
        store.documents.countP (fun d => decide (d.sectionName = some s)) := by
      have hmap : (store.documents.zip store.embeddings).map Prod.fst =
          store.documents := List.map_fst_zip _ _ (le_of_eq hwf)
      conv_rhs => rw [← hmap]
      rw [List.countP_map]
      rfl
    rw [h1, hcnt, hfst]

/-- Witness for C5 at a concrete store and the non-empty filter "Anemia". -/
theorem C5_filter_soundness_witness :
    ("Anemia" ≠ "") ∧
    (InMemoryVectorStore.search ⟨[chunkA, chunkB], [[1], [1]]⟩ [1] 5
      (some "Anemia")).all (fun c => decide (c.sectionName = some "Anemia")) = true ∧
    (InMemoryVectorStore.search ⟨[chunkA, chunkB], [[1], [1]]⟩ [1] 5
      (some "Anemia")).length ≤
      (⟨[chunkA, chunkB], [[1], [1]]⟩ : InMemoryVectorStore).documents.countP
        (fun d => decide (d.sectionName = some "Anemia")) := by
  have h := C5_filter_soundness ⟨[chunkA, chunkB], [[1], [1]]⟩ [1] 5 "Anemia"
    (by simp) rfl
  exact ⟨by simp, h.1, h.2⟩

/-- Counterexample to C5 as stated: with the set filter value `""` the code
ignores the filter (Python falsiness), returning the section-"WBC" chunk whose
section differs from the filter value; the count bound also fails because no
stored chunk has section `""`. -/
theorem C5_empty_filter_counterexample :
    (InMemoryVectorStore.search ⟨[chunkB], [[1]]⟩ [1] 2 (some "")).all
      (fun c => decide (c.sectionName = some "")) = false ∧
    ¬ ((InMemoryVectorStore.search ⟨[chunkB], [[1]]⟩ [1] 2 (some "")).length ≤
      (⟨[chunkB], [[1]]⟩ : InMemoryVectorStore).documents.countP
        (fun d => decide (d.sectionName = some ""))) := by
  have hs : InMemoryVectorStore.search ⟨[chunkB], [[1]]⟩ [1] 2 (some "") =
      [chunkB.withScore 1] := by
    simp [InMemoryVectorStore.search, sortDescBy, insertDescBy, sectionSkip,
      cosine_similarity, round4_one, List.enum, List.enumFrom]
  rw [hs]
  constructor
  · simp [Chunk.withScore, chunkB, baseChunk]
  · simp [chunkB, baseChunk]

/-- C7: the keyword retriever's score equals the spec's length-normalized
distinct-token overlap score (with 0.0 for a chunk whose combined text yields
no tokens), and `search` returns the chunks ordered strictly by (score
descending, original chunk position ascending) — descending sort with ties
broken by original order — truncated to `top_k`, as annotated copies. -/
theorem C7_keyword_search_matches_spec (kr : KeywordRetriever) (query : String)
    (top_k : ℕ) (chunk : Chunk) :
    KeywordRetriever._score chunk ((tokenize query.toLower).toFinset) =
      keywordScoreSpec query chunk ∧
    kr.search query top_k = keywordSearchSpec kr query top_k := by
  have hscore : ∀ c : Chunk,
      KeywordRetriever._score c ((tokenize query.toLower).toFinset) =
      keywordScoreSpec query c := by
    intro c
    simp [KeywordRetriever._score, keywordScoreSpec, Finset.card_eq_zero]
  refine ⟨hscore chunk, ?_⟩
  have hset : kr.chunks.map
      (fun c => (KeywordRetriever._score c ((tokenize query.toLower).toFinset), c)) =
      kr.chunks.map (fun c => (keywordScoreSpec query c, c)) :=
    List.map_congr_left (fun c _ => by rw [hscore c])
  have hpairT : List.Pairwise (fun a b : ℝ × ℕ × Chunk => a.2.1 < b.2.1)
      (kr.chunks.enum.map (fun p => (keywordScoreSpec query p.2, p.1, p.2))) :=
    List.pairwise_map.mpr (pairwise_fst_lt_enum kr.chunks)
  have hproj : (kr.chunks.enum.map
      (fun p => (keywordScoreSpec query p.2, p.1, p.2))).map
      (fun t : ℝ × ℕ × Chunk => (t.1, t.2.2)) =
      kr.chunks.map (fun c => (keywordScoreSpec query c, c)) := by
    rw [List.map_map]
    conv_rhs => rw [← List.enum_map_snd kr.chunks, List.map_map]
    rfl
  have hsort : sortDescBy (fun p : ℝ × Chunk => p.1)
      ((kr.chunks.enum.map (fun p => (keywordScoreSpec query p.2, p.1, p.2))).map
        (fun t : ℝ × ℕ × Chunk => (t.1, t.2.2))) =
      (sortLexBy (fun t : ℝ × ℕ × Chunk => t.1) (fun t : ℝ × ℕ × Chunk => t.2.1)
        (kr.chunks.enum.map (fun p => (keywordScoreSpec query p.2, p.1, p.2)))).map
        (fun t : ℝ × ℕ × Chunk => (t.1, t.2.2)) := by
    rw [← map_sortDescBy (fun t : ℝ × ℕ × Chunk => (t.1, t.2.2))
      (fun p : ℝ × Chunk => p.1)]
    congr 1
    exact sortDescBy_eq_sortLexBy _ _ _ hpairT
  simp only [KeywordRetriever.search, keywordSearchSpec]
  rw [hset, ← hproj, hsort, ← List.map_take, List.map_map]
  rfl

/-- C8: threshold gating of the anemia synthesizer.  On a ready orchestrator,
hemoglobin 11.0 with sex "F" (below the 12.0 lower bound) makes
`analyze_anemia` issue one query-embedding call and one generation call and
return a RAG answer; hemoglobin absent, or at/above the sex-specific lower
bound, returns the `None` ("no finding") sentinel with zero provider calls. -/
theorem C8_anemia_threshold_gating (P : Providers) (e : CBCRagEngine)
    (cbc : List (String × Option ℝ)) (sex : String) :
    (e._ready = true → getV cbc "hgb" = some 11 → sex = "F" →
      ∃ ans q pr, analyze_anemia P e cbc sex =
        (Except.ok (some ans),
         [ProviderCall.embed q "RETRIEVAL_QUERY", ProviderCall.generate pr 0.2])) ∧
    (∀ h : ℝ, getV cbc "hgb" = some h →
      h ≥ (if sex = "M" then (13.5 : ℝ) else 12.0) →
      analyze_anemia P e cbc sex = (Except.ok none, [])) ∧
    (getV cbc "hgb" = none → analyze_anemia P e cbc sex = (Except.ok none, [])) := by
  refine ⟨?_, ?_, ?_⟩
  · intro hr hh hsex
    subst hsex
    have hne : ¬(("F" : String) = "M") := by decide
    simp only [analyze_anemia, hh, generate_with_rag, retrieve, hr, if_true, hne,
      if_false]
    rw [if_neg (by norm_num : ¬((11 : ℝ) ≥ 12.0))]
    exact ⟨_, _, _, by rw [List.singleton_append]⟩
  · intro h hh hge
    simp only [analyze_anemia, hh]
    rw [if_pos hge]
  · intro hh
    simp only [analyze_anemia, hh]

/-- Witness for C8 at concrete inputs on a ready orchestrator: hemoglobin 11.0
triggers a generation call; hemoglobin 13.0 or an absent hemoglobin yields the
sentinel with no calls. -/
theorem C8_anemia_threshold_gating_witness :
    readyEngine._ready = true ∧
    getV [("hgb", some 11)] "hgb" = some 11 ∧
    (∃ ans q pr, analyze_anemia oracleP readyEngine [("hgb", some 11)] "F" =
      (Except.ok (some ans),
       [ProviderCall.embed q "RETRIEVAL_QUERY", ProviderCall.generate pr 0.2])) ∧
    getV [("hgb", some 13)] "hgb" = some 13 ∧
    analyze_anemia oracleP readyEngine [("hgb", some 13)] "F" = (Except.ok none, []) ∧
    getV [] "hgb" = none ∧
    analyze_anemia oracleP readyEngine [] "F" = (Except.ok none, []) := by
  have h11 : getV [("hgb", some (11 : ℝ))] "hgb" = some 11 := by
    simp [getV, List.lookup]
  have h13 : getV [("hgb", some (13 : ℝ))] "hgb" = some 13 := by
    simp [getV, List.lookup]
  have h0 : getV ([] : List (String × Option ℝ)) "hgb" = none := rfl
  refine ⟨rfl, h11, ?_, h13, ?_, h0, ?_⟩
  · exact (C8_anemia_threshold_gating oracleP readyEngine [("hgb", some 11)] "F").1
      rfl h11 rfl
  · exact (C8_anemia_threshold_gating oracleP readyEngine [("hgb", some 13)] "F").2.1
      13 h13 (by rw [if_neg (by decide : ¬(("F" : String) = "M"))]; norm_num)
  · exact (C8_anemia_threshold_gating oracleP readyEngine [] "F").2.2 h0

/-- A lab value of `0.0` behaves like an absent value in the truthiness-guarded
low-threshold check. -/
theorem flagLt_some_zero (fmt : ℝ → String) (bound : ℝ) (pre post : String) :
    flagLt fmt (some 0) bound pre post = flagLt fmt none bound pre post := by
  simp [flagLt]

/-- A lab value of `0.0` behaves like an absent value in the truthiness-guarded
high-threshold check. -/
theorem flagGt_some_zero (fmt : ℝ → String) (bound : ℝ) (pre post : String) :
    flagGt fmt (some 0) bound pre post = flagGt fmt none bound pre post := by
  simp [flagGt]

/-- Python `dict.get` after inserting one binding at the front. -/
theorem getV_cons (k key : String) (v : Option ℝ) (m : List (String × Option ℝ)) :
    getV ((k, v) :: m) key = if key = k then v else getV m key := by
  by_cases h : key = k
  · simp [getV, List.lookup, h]
  · have hb : (key == k) = false := beq_eq_false_iff_ne.mpr h
    simp [getV, List.lookup, h, hb]

/-- C9 (amended): at input collection `nz` maps a 0.0 reading to `None`
(treated as unset), and `full_rag_analysis` treats a stored 0.0 exactly like an
absent field (excluded from the serialized entered values, no abnormality
branch fires, identical output); but the domain synthesizers gate on `is None`,
so a 0.0 hemoglobin passed directly to `analyze_anemia` is treated as a real
below-range value and triggers query synthesis and a generation call. -/
theorem C9_zero_unset_amended (v : ℝ) (P : Providers) (e : CBCRagEngine)
    (m : List (String × Option ℝ)) (k : String) (sex : String) (age : ℕ)
    (cbc : List (String × Option ℝ)) :
    (v = 0 → nz v = none) ∧
    (m.lookup k = none →
      full_rag_analysis P e ((k, some 0) :: m) sex age =
      full_rag_analysis P e m sex age) ∧
    (e._ready = true → getV cbc "hgb" = some 0 →
      ∃ ans q pr, analyze_anemia P e cbc "F" =
        (Except.ok (some ans),
         [ProviderCall.embed q "RETRIEVAL_QUERY", ProviderCall.generate pr 0.2])) := by
  refine ⟨?_, ?_, ?_⟩
  · intro hv
    simp [nz, hv]
  · intro hm
    have hmk : getV m k = none := by simp [getV, hm]
    have hent : ((k, some (0 : ℝ)) :: m).filterMap (fun kv => match kv.2 with
        | some v => if v > 0 then some (kv.1, v) else none
        | none => none) = m.filterMap (fun kv => match kv.2 with
        | some v => if v > 0 then some (kv.1, v) else none
        | none => none) := by
      rw [List.filterMap_cons]
      simp
    have hgenLt : ∀ (κ : String) (b : ℝ) (pre post : String),
        flagLt P.fmt (if κ = k then some 0 else getV m κ) b pre post =
        flagLt P.fmt (getV m κ) b pre post := by
      intro κ b pre post
      by_cases hκ : κ = k
      · rw [if_pos hκ, hκ, hmk, flagLt_some_zero]
      · rw [if_neg hκ]
    have hgenGt : ∀ (κ : String) (b : ℝ) (pre post : String),
        flagGt P.fmt (if κ = k then some 0 else getV m κ) b pre post =
        flagGt P.fmt (getV m κ) b pre post := by
      intro κ b pre post
      by_cases hκ : κ = k
      · rw [if_pos hκ, hκ, hmk, flagGt_some_zero]
      · rw [if_neg hκ]
    simp only [full_rag_analysis, hent, getV_cons, full_rag_core, hgenLt, hgenGt]
  · intro hr hh
    have hne : ¬(("F" : String) = "M") := by decide
    simp only [analyze_anemia, hh, generate_with_rag, retrieve, hr, if_true, hne,
      if_false]
    rw [if_neg (by norm_num : ¬((0 : ℝ) ≥ 12.0))]
    exact ⟨_, _, _, by rw [List.singleton_append]⟩

/-- Counterexample to C9 as stated: a hemoglobin of exactly 0.0 passed to the
anemia synthesizer is NOT treated as unset — the `is None` gate lets 0.0
through, `0.0 < 12.0` fires the anemia branch and a generation call is issued
(non-empty provider-call list), whereas an absent hemoglobin yields the
sentinel with zero calls. -/
theorem C9_zero_hgb_counterexample :
    (analyze_anemia oracleP readyEngine [("hgb", some 0)] "F").2 ≠ [] ∧
    analyze_anemia oracleP readyEngine [] "F" = (Except.ok none, []) := by
  have hg : getV [("hgb", some (0 : ℝ))] "hgb" = some 0 := by
    simp [getV, List.lookup]
  have hne : ¬(("F" : String) = "M") := by decide
  constructor
  · simp only [analyze_anemia, hg, generate_with_rag, retrieve,
      (show readyEngine._ready = true from rfl), if_true, hne, if_false]
    rw [if_neg (by norm_num : ¬((0 : ℝ) ≥ 12.0))]
    simp
  · rfl

/-- Witness for C9's amended statement at concrete inputs. -/
theorem C9_zero_unset_amended_witness :
    ((0 : ℝ) = 0 ∧ nz 0 = none) ∧
    (([] : List (String × Option ℝ)).lookup "wbc" = none ∧
      full_rag_analysis oracleP readyEngine [("wbc", some 0)] "F" 40 =
      full_rag_analysis oracleP readyEngine [] "F" 40) ∧
    (readyEngine._ready = true ∧ getV [("hgb", some 0)] "hgb" = some 0 ∧
      ∃ ans q pr, analyze_anemia oracleP readyEngine [("hgb", some 0)] "F" =
        (Except.ok (some ans),
         [ProviderCall.embed q "RETRIEVAL_QUERY", ProviderCall.generate pr 0.2])) := by
  have h := C9_zero_unset_amended 0 oracleP readyEngine [] "wbc" "F" 40
    [("hgb", some 0)]
  refine ⟨⟨rfl, h.1 rfl⟩, ⟨rfl, h.2.1 rfl⟩, rfl, ?_, ?_⟩
  · simp [getV, List.lookup]
  · exact h.2.2 rfl (by simp [getV, List.lookup])

/-- Witness for C10 at a concrete one-entry store: the state-threading search
leaves the store unchanged, and the returned annotated chunk is a copy of the
stored document. -/
theorem C10_search_frame_witness :
    ((⟨[chunkA], [[1]]⟩ : InMemoryVectorStore).searchSt [1] 2 none).1 =
      (⟨[chunkA], [[1]]⟩ : InMemoryVectorStore) ∧
    (∃ d ∈ (⟨[chunkA], [[1]]⟩ : InMemoryVectorStore).documents, ∃ s,
      chunkA.withScore 1 = d.withScore s) := by
  have hs : InMemoryVectorStore.search ⟨[chunkA], [[1]]⟩ [1] 2 none =
      [chunkA.withScore 1] := by
    simp [InMemoryVectorStore.search, sortDescBy, insertDescBy, sectionSkip,
      cosine_similarity, round4_one, List.enum, List.enumFrom]
  have h := C10_search_frame ⟨[chunkA], [[1]]⟩ [1] 2 none ⟨[chunkA]⟩ "q"
  exact ⟨h.1, h.2.2.1 (chunkA.withScore 1) (by rw [hs]; simp)⟩
